import Mathlib

/-!
Verification development for the live trade count widget of the
247terminal.com website repository.

The logic under verification: the daily trade counter stored in a
key-value store (one integer bucket per UTC calendar date), the
fire-and-forget recorder hooked into trade creation, the 7-day and
30-day aggregation, the public read endpoint, and the rate limiter
configuration.

Modelling conventions:
* JS `Date` values are modelled as milliseconds since the Unix epoch
  (`Int`), in UTC; one day is 86400000 ms (JS time has no leap seconds).
* The key-value store is modelled as a pair of maps
  `String -> Option Nat`, one for values, one for expiries; `INCR`,
  `EXPIRE` and `MGET` act directly on it.
* `parseInt(v || 0, 10)` applied to a value read back from the store is
  modelled by `Option.getD _ 0`: stored values are decimal integer
  strings produced by `INCR`, so the parse never fails and an absent
  value parses as 0.
-/

/-- Gregorian civil date (year, month, day) of a day count relative to
1970-01-01; the standard era-based calendar algorithm, with floor
division. Models the calendar arithmetic inside the JS `Date` builtin. -/
def civilFromDays (z0 : Int) : Int × Int × Int :=
  let z := z0 + 719468
  let era := Int.ediv z 146097
  let doe := z - era * 146097
  let yoe := Int.ediv (doe - Int.ediv doe 1460 + Int.ediv doe 36524 - Int.ediv doe 146096) 365
  let y := yoe + era * 400
  let doy := doe - (365 * yoe + Int.ediv yoe 4 - Int.ediv yoe 100)
  let mp := Int.ediv (5 * doy + 2) 153
  let d := doy - Int.ediv (153 * mp + 2) 5 + 1
  let m := if mp < 10 then mp + 3 else mp - 9
  (if m ≤ 2 then y + 1 else y, m, d)

/-- Left-pad a numeral to two digits. -/
def pad2 (n : Int) : String :=
  if n < 10 then "0" ++ toString n else toString n

/-- Left-pad a numeral to three digits. -/
def pad3 (n : Int) : String :=
  if n < 10 then "00" ++ toString n
  else if n < 100 then "0" ++ toString n
  else toString n

/-- Left-pad a numeral to four digits. -/
def pad4 (n : Int) : String :=
  if n < 10 then "000" ++ toString n
  else if n < 100 then "00" ++ toString n
  else if n < 1000 then "0" ++ toString n
  else toString n

/-- The `YYYY-MM-DD` (UTC) date part of a JS instant. -/
def jsDatePart (ms : Int) : String :=
  let ymd := civilFromDays (Int.ediv ms 86400000)
  pad4 ymd.1 ++ "-" ++ pad2 ymd.2.1 ++ "-" ++ pad2 ymd.2.2

/-- Model of JS `Date.prototype.toISOString` for dates whose year fits
in four digits: `YYYY-MM-DDTHH:mm:ss.sssZ`, always UTC. -/
def jsToISOString (ms : Int) : String :=
  let tod := Int.emod ms 86400000
  jsDatePart ms ++ "T" ++
    pad2 (Int.ediv tod 3600000) ++ ":" ++
    pad2 (Int.emod (Int.ediv tod 60000) 60) ++ ":" ++
    pad2 (Int.emod (Int.ediv tod 1000) 60) ++ "." ++
    pad3 (Int.emod tod 1000) ++ "Z"

/-- `format_date_utc` from `trade_stats.js`: the source computes
`date.toISOString().split('T')[0]`, which is exactly the `YYYY-MM-DD`
date part preceding the `T` of the ISO string. -/
def format_date_utc (ms : Int) : String :=
  jsDatePart ms

/-- `get_date_days_ago` from `trade_stats.js`: `new Date()` followed by
`date.setUTCDate(date.getUTCDate() - days)`. Since JS time counts
uniform 86400000 ms days (no leap seconds), the day-of-month rollover
arithmetic of `setUTCDate` subtracts exactly `days` whole days. The
current instant is passed explicitly. -/
def get_date_days_ago (now_ms : Int) (days : Nat) : Int :=
  now_ms - (days : Int) * 86400000

/-- The key-value store (Redis) state: the value map and the expiry map
(seconds of time-to-live recorded by `EXPIRE`). -/
structure Store where
  data : String → Option Nat
  expiry : String → Option Nat

/-- A store with no keys at all. -/
def Store.empty : Store :=
  ⟨fun _ => none, fun _ => none⟩

/-- Overwrite a single value in the store (leaves expiries alone). -/
def Store.setval (s : Store) (k : String) (v : Nat) : Store :=
  { s with data := fun x => if x = k then some v else s.data x }

/-- The `KEY_PREFIX` constant of `trade_stats.js`. -/
def daily_count_ns : String := "trade:daily_count"

/-- Storage key for a formatted date: the template
`KEY_PREFIX:date_key` used by all three `trade_stats` methods. -/
def key_of (date_key : String) : String :=
  daily_count_ns ++ ":" ++ date_key

/-- The storage key of the bucket for the date of a given instant. -/
def trade_key (now_ms : Int) : String :=
  key_of (format_date_utc now_ms)

/-- The ordered list of formatted dates, offsets `0` (today) through
`days - 1`, exactly as the loops of `get_trade_count` and
`get_widget_stats` build them. -/
def window_dates (now_ms : Int) (days : Nat) : List String :=
  (List.range days).map (fun i => format_date_utc (get_date_days_ago now_ms i))

/-- The ordered list of storage keys of the window. -/
def window_keys (now_ms : Int) (days : Nat) : List String :=
  (window_dates now_ms days).map key_of

/-- The aggregate returned by `get_widget_stats`. -/
structure AggregateStats where
  trades_7d : Nat
  trades_30d : Nat
  last_updated : String
deriving DecidableEq

/-- JS object property assignment `obj[k] = v` on an association list:
overwrite the entry if the property exists, append it otherwise. -/
def objSet (l : List (String × Nat)) (k : String) (v : Nat) : List (String × Nat) :=
  if k ∈ l.map Prod.fst then l.map (fun p => if p.1 = k then (k, v) else p)
  else l ++ [(k, v)]

namespace trade_stats

/-- `trade_stats.record_trade` from `trade_stats.js`: `INCR` the bucket
of the current UTC date; if the post-increment value is 1 (the key was
just created), set an expiry of 35 days; return the post-increment
value. -/
def record_trade (now_ms : Int) (s : Store) : Store × Nat :=
  let date_key := format_date_utc now_ms
  let key := key_of date_key
  let count := (s.data key).getD 0 + 1
  let s1 : Store := { s with data := fun k => if k = key then some count else s.data k }
  if count = 1 then
    ({ s1 with expiry := fun k => if k = key then some (35 * 24 * 60 * 60) else s1.expiry k },
     count)
  else
    (s1, count)

/-- `trade_stats.get_trade_count` from `trade_stats.js`: build the keys
and the key-to-date map for the window, `MGET` all values in one batch,
then fold over the answers accumulating `total` and the `daily`
breakdown object. Returns `(total, daily)`. -/
def get_trade_count (now_ms : Int) (days : Nat) (s : Store) : Nat × List (String × Nat) :=
  let pairs := (window_dates now_ms days).map (fun date_key => (key_of date_key, date_key))
  let keys := pairs.map (fun p => p.1)
  let values := keys.map s.data
  (keys.zip values).foldl
    (fun acc kv =>
      let count := kv.2.getD 0
      let date := (List.lookup kv.1 pairs).getD ""
      (acc.1 + count, objSet acc.2 date count))
    (0, [])

/-- The body of the `values.forEach((val, index) => ...)` loop of
`get_widget_stats`: parse the value, add it to the 30-day total, and to
the 7-day total when the index is below 7. -/
def widget_step (acc : Nat × Nat) (iv : Nat × Option Nat) : Nat × Nat :=
  let count := iv.2.getD 0
  (if iv.1 < 7 then acc.1 + count else acc.1, acc.2 + count)

/-- `trade_stats.get_widget_stats` from `trade_stats.js`: build the 30
window keys, `MGET` them in one batch, fold the indexed values through
`widget_step`, and stamp the current instant. -/
def get_widget_stats (now_ms : Int) (s : Store) : AggregateStats :=
  let keys_30d := window_keys now_ms 30
  let values := keys_30d.map s.data
  let r := values.enum.foldl widget_step (0, 0)
  { trades_7d := r.1, trades_30d := r.2, last_updated := jsToISOString now_ms }

end trade_stats

/-- Reference aggregation algorithm, written from the specification
text of `widget_stats()`: build the ordered sequence of the last 30
calendar dates in UTC, today (offset 0) through 29 days ago, each
formatted `YYYY-MM-DD`; issue one batched read across the 30 derived
keys, an absent key reading as 0; sum offsets 0 through 6 into
`trades_7d`; sum all 30 values into `trades_30d`; stamp `last_updated`
with the current instant in ISO 8601 UTC. -/
def widget_stats_spec (now_ms : Int) (s : Store) : AggregateStats :=
  let dates := (List.range 30).map (fun i => format_date_utc (get_date_days_ago now_ms i))
  let values := dates.map (fun d => (s.data (key_of d)).getD 0)
  { trades_7d := (values.take 7).sum
    trades_30d := values.sum
    last_updated := jsToISOString now_ms }

/-- A sequence of `record_trade` calls, one per listed instant, in
order; returns the final store and the list of returned counts. -/
def record_seq : List Int → Store → Store × List Nat
  | [], s => (s, [])
  | t :: ts, s =>
    let r1 := trade_stats.record_trade t s
    let r2 := record_seq ts r1.1
    (r2.1, r1.2 :: r2.2)

/-- All listed instants fall on the same UTC calendar date as the given
instant. -/
def same_utc_date (now_ms : Int) (ts : List Int) : Prop :=
  ∀ t ∈ ts, format_date_utc t = format_date_utc now_ms

instance (now_ms : Int) (ts : List Int) : Decidable (same_utc_date now_ms ts) :=
  inferInstanceAs (Decidable (∀ t ∈ ts, format_date_utc t = format_date_utc now_ms))

/-- Two stores agree on the values of all listed keys. -/
def agree_on (s s' : Store) (ks : List String) : Prop :=
  ∀ k ∈ ks, s.data k = s'.data k

/-- The error taxonomy of the counter subsystem: connectivity failure of
the key-value store. -/
inductive StoreErr where
  | StoreUnavailable
deriving DecidableEq

/-- The trade document returned by `trade.save()` in
`trading.service.js`; only its identity matters here. -/
structure SavedTrade where
  trade_id : Nat
deriving DecidableEq

/-- `create_trade` from `trading.service.js`, shallowly embedded: the
outcome of `await trade.save()` and the outcome of the detached
`trade_stats.record_trade()` call are passed as parameters. The
detached call is not awaited; its `.catch` handler only appends a
`record_trade_stats_error` log entry. On save success the function logs
and returns the saved trade; on save failure it logs and rethrows.
Returns the result together with the emitted log operation names. -/
def create_trade (save_result : Except String SavedTrade)
    (record_result : Except StoreErr Nat) :
    Except String SavedTrade × List String :=
  match save_result with
  | Except.error e => (Except.error e, ["create_trade_error"])
  | Except.ok saved_trade =>
    let stats_logs :=
      match record_result with
      | Except.error _ => ["record_trade_stats_error"]
      | Except.ok _ => []
    (Except.ok saved_trade, stats_logs ++ ["create_trade"])

/-- A store client whose batched read can fail with `StoreUnavailable`
(an `await redis.connection.mGet(...)` that may throw). -/
structure RStore where
  mGet : List String → Except StoreErr (List (Option Nat))

/-- `get_widget_stats` with the fallibility of the batched store read
made explicit: same algorithm as `trade_stats.get_widget_stats`, a
thrown `StoreUnavailable` propagating out. -/
def get_widget_statsE (now_ms : Int) (st : RStore) : Except StoreErr AggregateStats :=
  match st.mGet (window_keys now_ms 30) with
  | Except.error e => Except.error e
  | Except.ok values =>
    let r := values.enum.foldl trade_stats.widget_step (0, 0)
    Except.ok { trades_7d := r.1, trades_30d := r.2, last_updated := jsToISOString now_ms }

namespace public_service

/-- `public_service.get_trade_stats` from `public.service.js`: call
`get_widget_stats`, log, and return its result; on error, log and
rethrow the error unchanged. -/
def get_trade_stats (now_ms : Int) (st : RStore) : Except StoreErr AggregateStats :=
  match get_widget_statsE now_ms st with
  | Except.ok stats => Except.ok stats
  | Except.error e => Except.error e

end public_service

/-- The response produced by the public controller: either the success
envelope of `success_response(res, stats, message)` or the error path
`next(error)`. -/
inductive ApiResponse where
  | success (data : AggregateStats) (message : String)
  | failure (e : StoreErr)
deriving DecidableEq

namespace public_controller

/-- `public_controller.get_trade_stats` from `public.controller.js`:
on success wrap the stats in the success envelope with the fixed
message; on error log and forward the error to `next`. -/
def get_trade_stats (now_ms : Int) (st : RStore) : ApiResponse :=
  match public_service.get_trade_stats now_ms st with
  | Except.ok stats => ApiResponse.success stats "trade stats retrieved"
  | Except.error e => ApiResponse.failure e

end public_controller

/-- The structured rejection body configured for the public rate
limiter. -/
structure RateLimitMessage where
  success : Bool
  message : String
deriving DecidableEq

/-- The options object passed to the `rate_limit` factory in
`rate_limit.js`. -/
structure RateLimitOptions where
  windowMs : Nat
  max : Nat
  standardHeaders : Bool
  legacyHeaders : Bool
  message : RateLimitMessage
deriving DecidableEq

/-- `public_rate_limit` from `rate_limit.js`: a 1 minute window, 120
requests per window per client, and the fixed rejection body. -/
def public_rate_limit : RateLimitOptions :=
  { windowMs := 60 * 1000
    max := 120
    standardHeaders := true
    legacyHeaders := false
    message := { success := false, message := "Too many requests, please try again later" } }

/-- Outcome of one request at the rate limiter: served, or rejected
with the configured body (never queued or delayed). -/
inductive RateDecision where
  | served
  | rejected (body : RateLimitMessage)
deriving DecidableEq

/-- Modelled from the spec: the `rate_limit` middleware factory (the
express-rate-limit library) is not part of the repository, only its
configuration is. Per the specification, requests from one client are
counted over a rolling 60-second window; a request is served while the
count of requests from that client inside the window is below `max`,
and rejected with the configured structured body otherwise. The first
argument accumulates the timestamps of already-seen requests; the
second lists the timestamps of the incoming requests in order. -/
def rate_limit_run (opts : RateLimitOptions) : List Nat → List Nat → List RateDecision
  | _, [] => []
  | prior, t :: rest =>
    let hits := (prior.filter (fun u => t - u < opts.windowMs)).length
    (if hits < opts.max then RateDecision.served else RateDecision.rejected opts.message)
      :: rate_limit_run opts (prior ++ [t]) rest

/-- All listed request timestamps lie within one rolling window of
width `w` of each other. -/
def within_window (w : Nat) (ts : List Nat) : Prop :=
  ∀ t ∈ ts, ∀ u ∈ ts, t - u < w

instance (w : Nat) (ts : List Nat) : Decidable (within_window w ts) :=
  inferInstanceAs (Decidable (∀ t ∈ ts, ∀ u ∈ ts, t - u < w))

/-- A store client whose batched read always fails. -/
def unavailable_store : RStore :=
  ⟨fun _ => Except.error StoreErr.StoreUnavailable⟩

/-- The date model agrees with the JS builtin on sample instants. -/
theorem format_date_utc_samples :
    format_date_utc 0 = "1970-01-01" ∧
    format_date_utc (-1) = "1969-12-31" ∧
    format_date_utc (19000 * 86400000) = "2022-01-08" ∧
    jsToISOString 90061001 = "1970-01-02T01:01:01.001Z" := by
  refine ⟨?_, ?_, ?_, ?_⟩ <;> decide

/-- The fold of `get_widget_stats` over the indexed values computes the
sum of the first `7 - k` parsed values (7-day side) and the sum of all
parsed values (30-day side), for any starting index and accumulator. -/
theorem widget_foldl (l : List (Option Nat)) : ∀ (k a b : Nat),
    (List.enumFrom k l).foldl trade_stats.widget_step (a, b) =
      (a + ((l.take (7 - k)).map (fun v => v.getD 0)).sum,
       b + (l.map (fun v => v.getD 0)).sum) := by
  induction l with
  | nil => intro k a b; simp [List.enumFrom]
  | cons x xs ih =>
    intro k a b
    have h1 : List.enumFrom k (x :: xs) = (k, x) :: List.enumFrom (k + 1) xs := rfl
    rw [h1, List.foldl_cons]
    by_cases hk : k < 7
    · rw [show trade_stats.widget_step (a, b) (k, x) = (a + x.getD 0, b + x.getD 0) from by
        simp [trade_stats.widget_step, hk]]
      rw [ih]
      have h2 : 7 - k = (7 - (k + 1)) + 1 := by omega
      rw [h2, List.take_succ_cons]
      simp only [List.map_cons, List.sum_cons, Prod.mk.injEq]
      constructor <;> omega
    · rw [show trade_stats.widget_step (a, b) (k, x) = (a, b + x.getD 0) from by
        simp [trade_stats.widget_step, hk]]
      rw [ih]
      have h2 : 7 - k = 0 := by omega
      have h3 : 7 - (k + 1) = 0 := by omega
      rw [h2, h3]
      simp only [List.take_zero, List.map_nil, List.sum_nil, List.map_cons, List.sum_cons,
        Prod.mk.injEq]
      exact ⟨trivial, by omega⟩

/-- The sum of a prefix of a list of naturals is at most the full sum. -/
theorem sum_take_le (l : List Nat) (n : Nat) : (l.take n).sum ≤ l.sum := by
  conv_rhs => rw [← List.take_append_drop n l]
  rw [List.sum_append]
  exact Nat.le_add_right _ _

/-- A shorter window is a prefix of a longer one. -/
theorem window_dates_take (now_ms : Int) (m n : Nat) (h : m ≤ n) :
    window_dates now_ms m = (window_dates now_ms n).take m := by
  unfold window_dates
  rw [← List.map_take, List.take_range, Nat.min_eq_left h]

/-- The key template is injective in the date part. -/
theorem key_of_inj (a b : String) (h : key_of a = key_of b) : a = b := by
  have h2 : (daily_count_ns ++ ":").data ++ a.data = (daily_count_ns ++ ":").data ++ b.data := by
    have h3 := congrArg String.data h
    simpa [key_of, String.data_append] using h3
  exact String.ext (List.append_cancel_left h2)

/-- Looking up a window key in the key-to-date map of `get_trade_count`
recovers the date the key was derived from. -/
theorem lookup_pairs (d : String) : ∀ (ds : List String), d ∈ ds →
    List.lookup (key_of d) (ds.map (fun x => (key_of x, x))) = some d := by
  intro ds
  induction ds with
  | nil => intro h; cases h
  | cons x xs ih =>
    intro hd
    by_cases hx : d = x
    · subst hx
      simp [List.lookup]
    · have hk : (key_of d == key_of x) = false := by
        rw [beq_eq_false_iff_ne]
        intro hcontra
        exact hx (key_of_inj _ _ hcontra)
      have hd2 : d ∈ xs := by
        rcases List.mem_cons.mp hd with h | h
        · exact absurd h hx
        · exact h
      simp [List.lookup, hk, ih hd2]

/-- Looking up a date in a pair list keyed by the dates themselves
recovers the associated value. -/
theorem lookup_pair_self {β : Type} (g : String → β) (d : String) : ∀ (ds : List String),
    d ∈ ds → List.lookup d (ds.map (fun x => (x, g x))) = some (g d) := by
  intro ds
  induction ds with
  | nil => intro h; cases h
  | cons x xs ih =>
    intro hd
    by_cases hx : d = x
    · subst hx
      simp [List.lookup]
    · have hk : (d == x) = false := by
        rw [beq_eq_false_iff_ne]
        exact hx
      have hd2 : d ∈ xs := by
        rcases List.mem_cons.mp hd with h | h
        · exact absurd h hx
        · exact h
      simp [List.lookup, hk, ih hd2]

/-- Zipping a list with its own image is mapping into pairs. -/
theorem zip_map_self {α β : Type} (f : α → β) : ∀ (l : List α),
    l.zip (l.map f) = l.map (fun a => (a, f a)) := by
  intro l
  induction l with
  | nil => rfl
  | cons x xs ih => simp [ih]

/-- Assigning a fresh property appends it. -/
theorem objSet_of_not_mem (l : List (String × Nat)) (k : String) (v : Nat)
    (h : k ∉ l.map Prod.fst) : objSet l k v = l ++ [(k, v)] := by
  unfold objSet
  rw [if_neg h]

/-- The accumulation loop of `get_trade_count`, once reduced to a fold
over the dates themselves: it sums the per-date counts and appends one
breakdown entry per date, provided the pending dates are fresh. -/
theorem gtc_fold (g : String → Nat) : ∀ (ds : List String) (a : Nat)
    (dl : List (String × Nat)), ((dl.map Prod.fst) ++ ds).Nodup →
    ds.foldl (fun acc d => (acc.1 + g d, objSet acc.2 d (g d))) (a, dl) =
      (a + (ds.map g).sum, dl ++ ds.map (fun d => (d, g d))) := by
  intro ds
  induction ds with
  | nil => intro a dl h; simp
  | cons d rest ih =>
    intro a dl h
    have hd_not : d ∉ dl.map Prod.fst := by
      rw [List.nodup_append] at h
      exact fun hmem => (h.2.2 hmem (List.mem_cons_self d rest)).elim
    rw [List.foldl_cons]
    show List.foldl (fun acc d2 => (acc.1 + g d2, objSet acc.2 d2 (g d2)))
        (a + g d, objSet dl d (g d)) rest = _
    rw [objSet_of_not_mem _ _ _ hd_not]
    have hnd : ((dl ++ [(d, g d)]).map Prod.fst ++ rest).Nodup := by
      simpa [List.append_assoc] using h
    rw [ih (a + g d) (dl ++ [(d, g d)]) hnd]
    simp only [List.map_cons, List.sum_cons, Prod.mk.injEq, List.append_assoc,
      List.singleton_append]
    exact ⟨by omega, trivial⟩

/-- Characterization of `get_trade_count` when the window dates are
pairwise distinct: the total is the sum of the parsed per-date values
and the breakdown lists one entry per window date, in window order. -/
theorem gtc_char (now_ms : Int) (days : Nat) (s : Store)
    (hd : (window_dates now_ms days).Nodup) :
    trade_stats.get_trade_count now_ms days s =
      (((window_dates now_ms days).map (fun d => (s.data (key_of d)).getD 0)).sum,
       (window_dates now_ms days).map (fun d => (d, (s.data (key_of d)).getD 0))) := by
  simp only [trade_stats.get_trade_count]
  rw [zip_map_self, List.foldl_map, List.foldl_map, List.foldl_map]
  rw [List.foldl_ext _ (fun (acc : Nat × List (String × Nat)) d =>
      (acc.1 + (s.data (key_of d)).getD 0, objSet acc.2 d ((s.data (key_of d)).getD 0)))
    (0, ([] : List (String × Nat)))
    (fun acc d hmem => by
      simp only
      rw [lookup_pairs d (window_dates now_ms days) hmem]
      rfl)]
  rw [gtc_fold (fun d => (s.data (key_of d)).getD 0) (window_dates now_ms days) 0 []
    (by simpa using hd)]
  simp

/-- `get_trade_count` only sees stored values through the parse
`(v || 0)`: stores with pointwise equal parsed values give identical
results. -/
theorem gtc_congr (now_ms : Int) (days : Nat) (s s' : Store)
    (h : ∀ k, (s.data k).getD 0 = (s'.data k).getD 0) :
    trade_stats.get_trade_count now_ms days s = trade_stats.get_trade_count now_ms days s' := by
  simp only [trade_stats.get_trade_count, zip_map_self, List.foldl_map]
  apply List.foldl_ext
  intro acc y _
  rw [h]

/-- Characterization of `get_widget_stats`: the 7-day total is the sum
of the first seven parsed window values, the 30-day total the sum of
all thirty, and the stamp is the ISO string of the current instant. -/
theorem get_widget_stats_eq (now_ms : Int) (s : Store) :
    trade_stats.get_widget_stats now_ms s =
      { trades_7d :=
          ((((window_dates now_ms 30).map (fun d => (s.data (key_of d)).getD 0)).take 7)).sum
        trades_30d := ((window_dates now_ms 30).map (fun d => (s.data (key_of d)).getD 0)).sum
        last_updated := jsToISOString now_ms } := by
  simp only [trade_stats.get_widget_stats, window_keys, List.enum]
  rw [widget_foldl]
  simp only [Nat.zero_add, Nat.sub_zero, List.map_take, List.map_map]
  rfl

/-- A `record_trade` call on a date with no bucket: the bucket is
created with value 1, the expiry is set to 35 days, and 1 is
returned. -/
theorem record_trade_fresh (now_ms : Int) (s : Store)
    (h : s.data (trade_key now_ms) = none) :
    trade_stats.record_trade now_ms s =
      (⟨fun k => if k = trade_key now_ms then some 1 else s.data k,
        fun k => if k = trade_key now_ms then some (35 * 24 * 60 * 60) else s.expiry k⟩, 1) := by
  simp only [trade_stats.record_trade, trade_key] at h ⊢
  rw [h]
  rfl

/-- A `record_trade` call landing on a date whose bucket already holds
a positive count: the count is incremented and returned, and the expiry
map is untouched. -/
theorem record_trade_subsequent (now_ms t : Int) (s : Store) (m : Nat) (hm : 1 ≤ m)
    (hfmt : format_date_utc t = format_date_utc now_ms)
    (h : s.data (trade_key now_ms) = some m) :
    trade_stats.record_trade t s =
      (⟨fun k => if k = trade_key now_ms then some (m + 1) else s.data k, s.expiry⟩, m + 1) := by
  simp only [trade_stats.record_trade, trade_key] at h ⊢
  rw [hfmt, h]
  simp only [Option.getD_some]
  rw [if_neg (by omega)]

/-- A sequence of `record_trade` calls all landing on the date of
`now_ms`, starting from a bucket already holding a positive count `m`:
the calls return `m+1, m+2, ...`, the bucket ends at `m` plus the
number of calls, no other key changes, and the expiry map is never
touched. -/
theorem record_seq_subsequent (now_ms : Int) :
    ∀ (ts : List Int) (s : Store) (m : Nat), 1 ≤ m →
      same_utc_date now_ms ts →
      s.data (trade_key now_ms) = some m →
      (record_seq ts s).2 = List.range' (m + 1) ts.length ∧
      (record_seq ts s).1.data =
        (fun k => if k = trade_key now_ms then some (m + ts.length) else s.data k) ∧
      (record_seq ts s).1.expiry = s.expiry := by
  intro ts
  induction ts with
  | nil =>
    intro s m hm hsame h
    refine ⟨rfl, ?_, rfl⟩
    funext k
    by_cases hk : k = trade_key now_ms
    · subst hk
      simp [record_seq, h]
    · simp [record_seq, hk]
  | cons t ts ih =>
    intro s m hm hsame h
    have hfmt : format_date_utc t = format_date_utc now_ms := hsame t (List.mem_cons_self _ _)
    have hstep := record_trade_subsequent now_ms t s m hm hfmt h
    have htail : same_utc_date now_ms ts := fun u hu => hsame u (List.mem_cons_of_mem _ hu)
    simp only [record_seq]
    rw [hstep]
    obtain ⟨h1, h2, h3⟩ := ih
      ⟨fun k => if k = trade_key now_ms then some (m + 1) else s.data k, s.expiry⟩
      (m + 1) (by omega) htail (by simp)
    refine ⟨?_, ?_, ?_⟩
    · simp only [h1, List.length_cons]
      rw [List.range'_succ]
    · rw [h2]
      funext k
      by_cases hk : k = trade_key now_ms
      · subst hk
        simp [List.length_cons]
        omega
      · simp [hk]
    · rw [h3]

/-- When every incoming request falls within one window of every
already-counted request and of every other incoming request, the k-th
incoming request sees exactly `prior + k` hits, so it is served exactly
when `prior + k` is below the cap. -/
theorem rate_limit_run_char (opts : RateLimitOptions) :
    ∀ (ts prior : List Nat),
      (∀ t ∈ ts, ∀ u ∈ prior, t - u < opts.windowMs) →
      (∀ t ∈ ts, ∀ u ∈ ts, t - u < opts.windowMs) →
      rate_limit_run opts prior ts =
        (List.range ts.length).map
          (fun k => if prior.length + k < opts.max then RateDecision.served
            else RateDecision.rejected opts.message) := by
  intro ts
  induction ts with
  | nil => intro prior h1 h2; rfl
  | cons t rest ih =>
    intro prior h1 h2
    have hfilter : prior.filter (fun u => t - u < opts.windowMs) = prior := by
      apply List.filter_eq_self.mpr
      intro u hu
      simpa using h1 t (List.mem_cons_self _ _) u hu
    have h1' : ∀ t2 ∈ rest, ∀ u ∈ prior ++ [t], t2 - u < opts.windowMs := by
      intro t2 ht2 u hu
      rcases List.mem_append.mp hu with hu | hu
      · exact h1 t2 (List.mem_cons_of_mem _ ht2) u hu
      · rw [List.mem_singleton.mp hu]
        exact h2 t2 (List.mem_cons_of_mem _ ht2) t (List.mem_cons_self _ _)
    have h2' : ∀ t2 ∈ rest, ∀ u ∈ rest, t2 - u < opts.windowMs := by
      intro t2 ht2 u hu
      exact h2 t2 (List.mem_cons_of_mem _ ht2) u (List.mem_cons_of_mem _ hu)
    simp only [rate_limit_run]
    rw [hfilter, ih (prior ++ [t]) h1' h2']
    rw [List.length_cons, List.range_succ_eq_map, List.map_cons, List.map_map]
    congr 1
    apply List.map_congr_left
    intro a ha
    simp only [Function.comp_apply, List.length_append, List.length_singleton]
    rw [show prior.length + 1 + a = prior.length + (a + 1) from by omega]

/-- C1: for every store state and every fixed current UTC instant,
`get_widget_stats` returns the AggregateStats computed by the reference
algorithm of the specification: the ordered 30-date window today
through 29 days ago formatted `YYYY-MM-DD` under the namespace prefix,
one batched read, `trades_7d` the sum at offsets 0 through 6,
`trades_30d` the sum of all 30 values, and `last_updated` the current
instant in ISO 8601 UTC. -/
theorem c1_widget_stats_matches_reference (now_ms : Int) (s : Store) :
    trade_stats.get_widget_stats now_ms s = widget_stats_spec now_ms s := by
  rw [get_widget_stats_eq]
  rfl

/-- C2: for any store state the aggregate satisfies
`trades_7d ≤ trades_30d`, the 7 summed dates being a prefix of the 30
summed dates. -/
theorem c2_trades_7d_le_trades_30d (now_ms : Int) (s : Store) :
    (trade_stats.get_widget_stats now_ms s).trades_7d ≤
      (trade_stats.get_widget_stats now_ms s).trades_30d := by
  rw [get_widget_stats_eq]
  exact sum_take_le _ _

/-- C10: the totals of `get_widget_stats` are a function of only the 30
window keys: over any two instants with the same 30-date window and any
two store states agreeing on those keys, `trades_7d` and `trades_30d`
coincide (only `last_updated` can differ). -/
theorem c10_totals_depend_only_on_window (now_ms now_ms2 : Int) (s s2 : Store)
    (hw : window_dates now_ms 30 = window_dates now_ms2 30)
    (hagree : agree_on s s2 (window_keys now_ms 30)) :
    (trade_stats.get_widget_stats now_ms s).trades_7d =
      (trade_stats.get_widget_stats now_ms2 s2).trades_7d ∧
    (trade_stats.get_widget_stats now_ms s).trades_30d =
      (trade_stats.get_widget_stats now_ms2 s2).trades_30d := by
  have hmap : (window_dates now_ms 30).map (fun d => (s.data (key_of d)).getD 0) =
      (window_dates now_ms2 30).map (fun d => (s2.data (key_of d)).getD 0) := by
    rw [← hw]
    apply List.map_congr_left
    intro d hd
    have hk : key_of d ∈ window_keys now_ms 30 := by
      unfold window_keys
      exact List.mem_map_of_mem _ hd
    rw [hagree _ hk]
  rw [get_widget_stats_eq, get_widget_stats_eq]
  exact ⟨congrArg (fun l => (l.take 7).sum) hmap, congrArg List.sum hmap⟩

/-- C9: the widget path and the general-purpose variant agree:
`get_widget_stats` reproduces `get_trade_count 7` and
`get_trade_count 30`, and for an arbitrary window `get_trade_count`
has total equal to the sum of its daily breakdown, which carries
exactly one entry per window date, in order. -/
theorem c9_widget_agrees_with_trade_count (now_ms : Int) (s : Store) (days : Nat)
    (h30 : (window_dates now_ms 30).Nodup)
    (hdd : (window_dates now_ms days).Nodup) :
    (trade_stats.get_widget_stats now_ms s).trades_7d =
      (trade_stats.get_trade_count now_ms 7 s).1 ∧
    (trade_stats.get_widget_stats now_ms s).trades_30d =
      (trade_stats.get_trade_count now_ms 30 s).1 ∧
    (trade_stats.get_trade_count now_ms days s).1 =
      ((trade_stats.get_trade_count now_ms days s).2.map Prod.snd).sum ∧
    (trade_stats.get_trade_count now_ms days s).2.map Prod.fst =
      window_dates now_ms days := by
  have h7 : (window_dates now_ms 7).Nodup := by
    rw [window_dates_take now_ms 7 30 (by omega)]
    exact List.Nodup.sublist (List.take_sublist _ _) h30
  refine ⟨?_, ?_, ?_, ?_⟩
  · rw [get_widget_stats_eq, gtc_char now_ms 7 s h7]
    change (((window_dates now_ms 30).map (fun d => (s.data (key_of d)).getD 0)).take 7).sum =
      ((window_dates now_ms 7).map (fun d => (s.data (key_of d)).getD 0)).sum
    rw [window_dates_take now_ms 7 30 (by omega), List.map_take]
  · rw [get_widget_stats_eq, gtc_char now_ms 30 s h30]
  · rw [gtc_char now_ms days s hdd]
    rw [List.map_map]
    rfl
  · rw [gtc_char now_ms days s hdd]
    rw [List.map_map]
    exact List.map_id _

/-- C5: an absent bucket inside the window contributes exactly 0 and
never an error: replacing the absent value by an explicit 0 changes
neither `get_widget_stats` nor `get_trade_count`, and the daily
breakdown carries an explicit 0 entry for the absent date. -/
theorem c5_absent_reads_as_zero (now_ms : Int) (s : Store) (k : String) (days i : Nat)
    (hk : s.data k = none) (hi : i < days)
    (habs : s.data (key_of (format_date_utc (get_date_days_ago now_ms i))) = none)
    (hnd : (window_dates now_ms days).Nodup) :
    trade_stats.get_widget_stats now_ms (s.setval k 0) =
      trade_stats.get_widget_stats now_ms s ∧
    trade_stats.get_trade_count now_ms days (s.setval k 0) =
      trade_stats.get_trade_count now_ms days s ∧
    List.lookup (format_date_utc (get_date_days_ago now_ms i))
      (trade_stats.get_trade_count now_ms days s).2 = some 0 := by
  have hpt : ∀ x, ((s.setval k 0).data x).getD 0 = (s.data x).getD 0 := by
    intro x
    simp only [Store.setval]
    by_cases hx : x = k
    · rw [if_pos hx, hx, hk]
      rfl
    · rw [if_neg hx]
  refine ⟨?_, gtc_congr now_ms days _ _ hpt, ?_⟩
  · rw [get_widget_stats_eq, get_widget_stats_eq]
    have hmap : (window_dates now_ms 30).map (fun d => ((s.setval k 0).data (key_of d)).getD 0) =
        (window_dates now_ms 30).map (fun d => (s.data (key_of d)).getD 0) :=
      List.map_congr_left (fun d _ => hpt (key_of d))
    rw [hmap]
  · rw [gtc_char now_ms days s hnd]
    have hmem : format_date_utc (get_date_days_ago now_ms i) ∈ window_dates now_ms days := by
      unfold window_dates
      exact List.mem_map_of_mem _ (List.mem_range.mpr hi)
    rw [lookup_pair_self (fun d => (s.data (key_of d)).getD 0) _ _ hmem, habs]
    rfl

/-- C3: over any sequence of `record_trade` calls landing on one UTC
date, starting from no bucket, the expiry is set exactly once — on the
increment returning 1, to 35 days in seconds — and the whole expiry map
is untouched by every subsequent increment for that date. -/
theorem c3_expiry_set_exactly_once (now_ms : Int) (ts : List Int) (s : Store)
    (hsame : same_utc_date now_ms ts)
    (habs : s.data (trade_key now_ms) = none) :
    (trade_stats.record_trade now_ms s).2 = 1 ∧
    (trade_stats.record_trade now_ms s).1.expiry (trade_key now_ms) =
      some (35 * 24 * 60 * 60) ∧
    (record_seq ts (trade_stats.record_trade now_ms s).1).1.expiry =
      (trade_stats.record_trade now_ms s).1.expiry := by
  have hfresh := record_trade_fresh now_ms s habs
  rw [hfresh]
  refine ⟨rfl, if_pos rfl, ?_⟩
  exact (record_seq_subsequent now_ms ts
    ⟨fun k2 => if k2 = trade_key now_ms then some 1 else s.data k2,
     fun k2 => if k2 = trade_key now_ms then some (35 * 24 * 60 * 60) else s.expiry k2⟩
    1 (le_refl 1) hsame (if_pos rfl)).2.2

/-- C4: starting from no bucket for the current UTC date, a sequence of
`N = ts.length + 1` calls on that date returns the post-increment values
`1, 2, ..., N` in order, leaves the bucket at `N`, and a subsequent
`get_trade_count` read over that single date yields total `N`. -/
theorem c4_n_calls_count_n (now_ms : Int) (ts : List Int) (s : Store)
    (hsame : same_utc_date now_ms ts)
    (habs : s.data (trade_key now_ms) = none) :
    (record_seq (now_ms :: ts) s).2 = List.range' 1 (ts.length + 1) ∧
    (record_seq (now_ms :: ts) s).1.data (trade_key now_ms) = some (ts.length + 1) ∧
    (trade_stats.get_trade_count now_ms 1 (record_seq (now_ms :: ts) s).1).1 =
      ts.length + 1 := by
  have hfresh := record_trade_fresh now_ms s habs
  have hrec : record_seq (now_ms :: ts) s =
      ((record_seq ts (trade_stats.record_trade now_ms s).1).1,
       (trade_stats.record_trade now_ms s).2 ::
         (record_seq ts (trade_stats.record_trade now_ms s).1).2) := rfl
  rw [hrec, hfresh]
  obtain ⟨h1, h2, h3⟩ := record_seq_subsequent now_ms ts
    ⟨fun k2 => if k2 = trade_key now_ms then some 1 else s.data k2,
     fun k2 => if k2 = trade_key now_ms then some (35 * 24 * 60 * 60) else s.expiry k2⟩
    1 (le_refl 1) hsame (if_pos rfl)
  refine ⟨?_, ?_, ?_⟩
  · rw [List.range'_succ]
    exact congrArg (fun l => 1 :: l) h1
  · rw [h2]
    simp [Nat.add_comm]
  · have hr1 : List.range 1 = [0] := rfl
    have hnd1 : (window_dates now_ms 1).Nodup := by
      simp [window_dates, hr1]
    rw [gtc_char now_ms 1 _ hnd1]
    have hw1 : window_dates now_ms 1 = [format_date_utc now_ms] := by
      simp [window_dates, get_date_days_ago, hr1]
    rw [hw1]
    show ((record_seq ts _).1.data (key_of (format_date_utc now_ms))).getD 0 + 0 =
      ts.length + 1
    rw [show key_of (format_date_utc now_ms) = trade_key now_ms from rfl, h2]
    simp [Nat.add_comm]

/-- C6: the outcome of `create_trade` does not depend on the outcome of
the detached `record_trade` call: with a successful save it returns the
saved trade whatever the recorder outcome, and a recorder failure is
only captured in the log. -/
theorem c6_fire_and_forget (t : SavedTrade) (r r2 : Except StoreErr Nat) :
    (create_trade (Except.ok t) r).1 = Except.ok t ∧
    (create_trade (Except.ok t) r).1 = (create_trade (Except.ok t) r2).1 ∧
    "record_trade_stats_error" ∈
      (create_trade (Except.ok t) (Except.error StoreErr.StoreUnavailable)).2 := by
  refine ⟨?_, ?_, ?_⟩
  · cases r <;> rfl
  · cases r <;> cases r2 <;> rfl
  · simp [create_trade]

/-- C7: when the batched store read fails with `StoreUnavailable`, the
error propagates unchanged from `get_widget_stats` through the public
service to the error path of the controller, which produces a failure
envelope and never a success payload with partial totals. -/
theorem c7_store_failure_propagates (now_ms : Int) (st : RStore)
    (h : st.mGet (window_keys now_ms 30) = Except.error StoreErr.StoreUnavailable) :
    get_widget_statsE now_ms st = Except.error StoreErr.StoreUnavailable ∧
    public_service.get_trade_stats now_ms st = Except.error StoreErr.StoreUnavailable ∧
    public_controller.get_trade_stats now_ms st =
      ApiResponse.failure StoreErr.StoreUnavailable := by
  have h1 : get_widget_statsE now_ms st = Except.error StoreErr.StoreUnavailable := by
    simp [get_widget_statsE, h]
  have h2 : public_service.get_trade_stats now_ms st =
      Except.error StoreErr.StoreUnavailable := by
    simp [public_service.get_trade_stats, h1]
  have h3 : public_controller.get_trade_stats now_ms st =
      ApiResponse.failure StoreErr.StoreUnavailable := by
    simp [public_controller.get_trade_stats, h2]
  exact ⟨h1, h2, h3⟩

/-- C8: for any client, 121 requests inside one rolling 60-second
window produce 120 served decisions followed by one rejection carrying
exactly the configured structured body; the rejected request is
answered, not queued or delayed. -/
theorem c8_rate_limit_121st_rejected (ts : List Nat) (hlen : ts.length = 121)
    (hw : within_window (60 * 1000) ts) :
    rate_limit_run public_rate_limit [] ts =
      List.replicate 120 RateDecision.served ++
        [RateDecision.rejected
          { success := false, message := "Too many requests, please try again later" }] := by
  rw [rate_limit_run_char public_rate_limit ts []
    (by intro t2 ht2 u hu; cases hu) hw, hlen]
  rw [show (121 : Nat) = 120 + 1 from rfl, List.range_succ, List.map_append]
  congr 1

/-- Concrete instance of the C3 theorem: three increments on
1970-01-01 starting from an empty store. -/
theorem c3_witness :
    same_utc_date 0 [1000, 2000] ∧
    Store.empty.data (trade_key 0) = none ∧
    ((trade_stats.record_trade 0 Store.empty).2 = 1 ∧
     (trade_stats.record_trade 0 Store.empty).1.expiry (trade_key 0) =
       some (35 * 24 * 60 * 60) ∧
     (record_seq [1000, 2000] (trade_stats.record_trade 0 Store.empty).1).1.expiry =
       (trade_stats.record_trade 0 Store.empty).1.expiry) :=
  ⟨by decide, rfl, c3_expiry_set_exactly_once 0 [1000, 2000] Store.empty (by decide) rfl⟩

/-- Concrete instance of the C4 theorem: three increments on
1970-01-01 starting from an empty store. -/
theorem c4_witness :
    same_utc_date 0 [1000, 2000] ∧
    Store.empty.data (trade_key 0) = none ∧
    ((record_seq ((0 : Int) :: [1000, 2000]) Store.empty).2 =
       List.range' 1 (([1000, 2000] : List Int).length + 1) ∧
     (record_seq ((0 : Int) :: [1000, 2000]) Store.empty).1.data (trade_key 0) =
       some (([1000, 2000] : List Int).length + 1) ∧
     (trade_stats.get_trade_count 0 1
       (record_seq ((0 : Int) :: [1000, 2000]) Store.empty).1).1 =
       ([1000, 2000] : List Int).length + 1) :=
  ⟨by decide, rfl, c4_n_calls_count_n 0 [1000, 2000] Store.empty (by decide) rfl⟩

/-- Concrete instance of the C5 theorem: an empty store, the 7-day
window at the epoch, and the absent key of offset 0. -/
theorem c5_witness :
    Store.empty.data "k" = none ∧
    (0 : Nat) < 7 ∧
    Store.empty.data (key_of (format_date_utc (get_date_days_ago 0 0))) = none ∧
    (window_dates 0 7).Nodup ∧
    (trade_stats.get_widget_stats 0 (Store.empty.setval "k" 0) =
       trade_stats.get_widget_stats 0 Store.empty ∧
     trade_stats.get_trade_count 0 7 (Store.empty.setval "k" 0) =
       trade_stats.get_trade_count 0 7 Store.empty ∧
     List.lookup (format_date_utc (get_date_days_ago 0 0))
       (trade_stats.get_trade_count 0 7 Store.empty).2 = some 0) :=
  ⟨rfl, by decide, rfl, by decide,
   c5_absent_reads_as_zero 0 Store.empty "k" 7 0 rfl (by decide) rfl (by decide)⟩

/-- Concrete instance of the C7 theorem: a store client that always
fails the batched read. -/
theorem c7_witness :
    unavailable_store.mGet (window_keys 0 30) = Except.error StoreErr.StoreUnavailable ∧
    (get_widget_statsE 0 unavailable_store = Except.error StoreErr.StoreUnavailable ∧
     public_service.get_trade_stats 0 unavailable_store =
       Except.error StoreErr.StoreUnavailable ∧
     public_controller.get_trade_stats 0 unavailable_store =
       ApiResponse.failure StoreErr.StoreUnavailable) :=
  ⟨rfl, c7_store_failure_propagates 0 unavailable_store rfl⟩

/-- Concrete instance of the C8 theorem: 121 simultaneous requests. -/
theorem c8_witness :
    (List.replicate 121 0).length = 121 ∧
    within_window (60 * 1000) (List.replicate 121 0) ∧
    rate_limit_run public_rate_limit [] (List.replicate 121 0) =
      List.replicate 120 RateDecision.served ++
        [RateDecision.rejected
          { success := false, message := "Too many requests, please try again later" }] :=
  ⟨by decide, by decide,
   c8_rate_limit_121st_rejected (List.replicate 121 0) (by decide) (by decide)⟩

/-- Concrete instance of the C9 theorem: the empty store at the epoch
with a 3-day diagnostic window. -/
theorem c9_witness :
    (window_dates 0 30).Nodup ∧
    (window_dates 0 3).Nodup ∧
    ((trade_stats.get_widget_stats 0 Store.empty).trades_7d =
       (trade_stats.get_trade_count 0 7 Store.empty).1 ∧
     (trade_stats.get_widget_stats 0 Store.empty).trades_30d =
       (trade_stats.get_trade_count 0 30 Store.empty).1 ∧
     (trade_stats.get_trade_count 0 3 Store.empty).1 =
       ((trade_stats.get_trade_count 0 3 Store.empty).2.map Prod.snd).sum ∧
     (trade_stats.get_trade_count 0 3 Store.empty).2.map Prod.fst = window_dates 0 3) :=
  ⟨by decide, by decide,
   c9_widget_agrees_with_trade_count 0 Store.empty 3 (by decide) (by decide)⟩

/-- Concrete instance of the C10 theorem: two instants one second
apart on the same UTC date, over the empty store. -/
theorem c10_witness :
    window_dates 0 30 = window_dates 1000 30 ∧
    agree_on Store.empty Store.empty (window_keys 0 30) ∧
    ((trade_stats.get_widget_stats 0 Store.empty).trades_7d =
       (trade_stats.get_widget_stats 1000 Store.empty).trades_7d ∧
     (trade_stats.get_widget_stats 0 Store.empty).trades_30d =
       (trade_stats.get_widget_stats 1000 Store.empty).trades_30d) :=
  ⟨by decide, fun _ _ => rfl,
   c10_totals_depend_only_on_window 0 1000 Store.empty Store.empty (by decide)
     (fun _ _ => rfl)⟩
